import Mathlib

/-
Verification of the Starfeeder / Whisker weighing-system acquisition engine.

The Python source is embedded shallowly:

* machine integers and balance raw values are modelled as `Int` / `Nat`;
* real-valued quantities (masses in kg, seconds) are modelled exactly by
  `Rat`; the source uses binary floating point, and all concrete inputs
  used below are chosen so that the float computations are exact;
* fallible code is modelled with `Option` or `Except`;
* Python strings are modelled as `String`, or as `List Char` where the
  proofs need structural recursion over the characters;
* the Qt signal layer is modelled by returning emitted events explicitly.
-/

namespace Starfeeder

/-! ## Decimal strings

`natStr` models the Python `str` of a non-negative integer, `zfill`
models `str.zfill`, and `parseDec` models `int` applied to a string of
decimal digits (`weigh/rfid.py` builds the RFID number through exactly
this detour: `int(str(country) + str(national_id).zfill(12))`). -/

/-- The character for a decimal digit value (code point 48 is the
digit zero). -/
def digitChar (d : Nat) : Char :=
  if d < 10 then Char.ofNat (48 + d) else '*'

/-- The numeric value of a decimal digit character. -/
def decVal (c : Char) : Nat :=
  if '0' ≤ c ∧ c ≤ '9' then c.toNat - 48 else 0

/-- Decimal digits of `n`, most significant first; fuel-based so that it
is structurally recursive and kernel-computable. -/
def natStrAux : Nat → Nat → List Char
  | 0, _ => []
  | fuel + 1, n =>
    if n = 0 then [] else natStrAux fuel (n / 10) ++ [digitChar (n % 10)]

/-- Python `str(n)` for a non-negative integer `n`. -/
def natStr (n : Nat) : List Char :=
  if n = 0 then ['0'] else natStrAux (n + 1) n

/-- Python `s.zfill(k)`: left-pad with `0` up to width `k`. -/
def zfill (k : Nat) (l : List Char) : List Char :=
  List.replicate (k - l.length) '0' ++ l

/-- Python `int(s)` on a string of decimal digits. -/
def parseDec (l : List Char) : Nat :=
  l.foldl (fun a c => 10 * a + decVal c) 0

/-! ## FDX-B Z-tag decoding (`weigh/rfid.py`, `ztag_to_rfid_number`) -/

namespace Rfid

/-- Value of one hexadecimal character (digits, lowercase and uppercase
letters), as accepted by `bitstring.BitStream(hex=...)`. -/
def hexVal (c : Char) : Option Nat :=
  if '0' ≤ c ∧ c ≤ '9' then some (c.toNat - 48)
  else if 'a' ≤ c ∧ c ≤ 'f' then some (c.toNat - 87)
  else if 'A' ≤ c ∧ c ≤ 'F' then some (c.toNat - 55)
  else none

/-- The four bits of a hex nibble, most significant first. -/
def nibbleBits (v : Nat) : List Bool :=
  [decide (v / 8 % 2 = 1), decide (v / 4 % 2 = 1),
   decide (v / 2 % 2 = 1), decide (v % 2 = 1)]

/-- The bit stream of a hex string (as produced by
`bitstring.BitStream(hex=...)`); `none` when some character is not a
valid hexadecimal digit, in which case `bitstring` raises. -/
def hexToBits : List Char → Option (List Bool)
  | [] => some []
  | c :: cs =>
    match hexVal c, hexToBits cs with
    | some v, some bs => some (nibbleBits v ++ bs)
    | _, _ => none

/-- Unsigned integer value of a bit list, most significant bit first
(`bitstring` `Bits.uint`). -/
def bitsToNat (l : List Bool) : Nat :=
  l.foldl (fun a b => 2 * a + (if b then 1 else 0)) 0

/-- Outcome of `ztag_to_rfid_number`: `invalid` models a `None` return,
`exn` models an uncaught exception raised by the `bitstring` library. -/
inductive ZtagResult where
  | invalid
  | exn (msg : String)
  | ok (n : Nat)
deriving DecidableEq

/-- The `weigh/rfid.py` `ztag_to_rfid_number`.  The length/prefix guard
returns `None`; after that guard the 16 characters are handed to
`bitstring.BitStream(hex=...)` / `readlist`, which raises on input that
does not denote 64 bits.  The 38-bit national id and the 10-bit country
code are bit-reversed fields, and the result is
`int(str(country) + str(national_id).zfill(12))`. -/
def ztag_to_rfid_number (ztag : List Char) : ZtagResult :=
  if ztag.length = 17 ∧ ztag.head? = some 'Z' then
    let hexcode := ztag.drop 1
    match hexToBits hexcode with
    | none => .exn "bitstring: invalid hex initialiser"
    | some bits =>
      let national_id := bitsToNat (bits.take 38).reverse
      let country := bitsToNat ((bits.drop 38).take 10).reverse
      let rfid_string := natStr country ++ zfill 12 (natStr national_id)
      .ok (parseDec rfid_string)
  else
    .invalid

end Rfid

/-! ## Balance controller (`weigh/balance.py`, `BalanceController`) -/

namespace Balance

/-- The `MassSingleEvent` as constructed by
`BalanceController.process_value`. -/
structure MassSingleEvent where
  balance_id : Int
  reader_id : Int
  mass_kg : Rat
  timestamp : Rat
deriving DecidableEq

/-- The `CalibrationReport` as constructed by
`BalanceController.report_calibration`. -/
structure CalibrationReport where
  balance_id : Int
  zero_value : Option Int
  refload_value : Option Int
deriving DecidableEq

/-- The RFID event consumed by `BalanceController.on_rfid` (it reads the
`reader_id`, `balance_id` and `timestamp` attributes). -/
structure RfidSingleEvent where
  reader_id : Int
  balance_id : Int
  timestamp : Rat
deriving DecidableEq

/-- The mutable fields of `BalanceController` (`__init__`).  Timestamps
are seconds as `Rat`. -/
structure BState where
  balance_id : Int
  reader_id : Int
  stability_n : Nat
  tolerance_kg : Rat
  min_mass_kg : Rat
  measurement_rate_hz : Nat
  read_continuously : Bool
  zero_value : Option Int
  refload_value : Option Int
  refload_mass_kg : Option Rat
  rfid_effective_time_s : Rat
  command_queue : List String
  n_pending_measurements : Int
  read_until : Rat
  recent_measurements_kg : List Rat
  pending_calibrate : Bool
  pending_tare : Bool
deriving DecidableEq

/-- The `measurements_per_batch = math.ceil(0.5 * measurement_rate_hz)`;
the float product is exact, so this is the integer ceiling of
`rate / 2`. -/
def measurements_per_batch (st : BState) : Nat :=
  (st.measurement_rate_hz + 1) / 2

def CMD_NO_OP : String := ""
def CMD_WARM_RESTART : String := "RES"
def CMD_SET_BAUD_RATE : String := "BDR"
def CMD_QUERY_BAUD_RATE : String := "BDR?"
def CMD_ASCII_RESULT_OUTPUT : String := "COF3"
def CMD_DATA_DELIMITER_COMMA_CR_LF : String := "TEX172"
def CMD_QUERY_IDENTIFICATION : String := "IDN?"
def CMD_QUERY_STATUS : String := "ESR?"
def CMD_QUERY_OUTPUT_SCALING : String := "NOV?"
def CMD_MEASUREMENT_RATE : String := "ICR"
def CMD_QUERY_MEASURE : String := "MSV?"
def CMD_STOP_MEASURING : String := "STP"

def RESET_PAUSE_MS : Nat := 3000
def BAUDRATE_PAUSE_MS : Nat := 200

/-- The `RATE_MAP_HZ_TO_CODE` (`dict.get` semantics: `none` when the rate is
not a key). -/
def RATE_MAP_HZ_TO_CODE : Nat → Option Nat
  | 100 => some 0
  | 50 => some 1
  | 25 => some 2
  | 12 => some 3
  | 6 => some 4
  | 3 => some 5
  | 2 => some 6
  | 1 => some 7
  | _ => none

/-- What the controller hands to the serial writer.  A `cmd` is one
message, terminated on the wire by the `tx_eol` byte `;`; a `pause`
records a single-shot timer armed between commands. -/
inductive OutItem where
  | cmd (msg : String)
  | pause (ms : Nat)
deriving DecidableEq

/-- The outbound byte stream: each command message followed by the `;`
terminator; pauses contribute no bytes. -/
def outStream (items : List OutItem) : String :=
  items.foldl (fun acc i => match i with
    | .cmd msg => acc ++ msg ++ ";"
    | .pause _ => acc) ""

/-- The `BalanceController.send`: optionally enqueue the command for a
reply, then hand `command + params` to the writer. -/
def bsend (s : BState × List OutItem) (command params : String)
    (reply_expected : Bool) : BState × List OutItem :=
  let st := s.1
  let st := if reply_expected then
    { st with command_queue := st.command_queue ++ [command] } else st
  (st, s.2 ++ [.cmd (command ++ params)])

/-- The `BalanceController.start_measuring`. -/
def start_measuring (s : BState × List OutItem) : BState × List OutItem :=
  let st := s.1
  let b := measurements_per_batch st
  let st := { st with n_pending_measurements := st.n_pending_measurements + b }
  let s := bsend (st, s.2) CMD_QUERY_MEASURE (toString b) true
  ({ s.1 with
      command_queue := s.1.command_queue ++ List.replicate (b - 1) CMD_QUERY_MEASURE },
   s.2)

/-- The `BalanceController.reset` (phase 1; arms the 3000 ms timer). -/
def reset (s : BState × List OutItem) : BState × List OutItem :=
  let st := { s.1 with recent_measurements_kg := ([] : List Rat) }
  let s := bsend (st, s.2) CMD_NO_OP "" false
  let s := bsend s CMD_STOP_MEASURING "" false
  let s := bsend s CMD_WARM_RESTART "" false
  (s.1, s.2 ++ [.pause RESET_PAUSE_MS])

/-- The `BalanceController.reset_2` (phase 2; parity is the pySerial parity
character, arms the 200 ms timer). -/
def reset_2 (s : BState × List OutItem) (baudrate : Nat) (parity : Char) :
    BState × List OutItem :=
  let parity_code : Nat := if parity = 'N' then 0 else 1
  let s := bsend s CMD_SET_BAUD_RATE
    (toString baudrate ++ "," ++ toString parity_code) true
  (s.1, s.2 ++ [.pause BAUDRATE_PAUSE_MS])

/-- The `BalanceController.reset_3` (phase 3), which ends by calling
`start_measuring`. -/
def reset_3 (s : BState × List OutItem) : BState × List OutItem :=
  let s := bsend s CMD_QUERY_BAUD_RATE "" true
  let s := bsend s CMD_QUERY_IDENTIFICATION "" true
  let s := bsend s CMD_QUERY_STATUS "" true
  let s := bsend s CMD_ASCII_RESULT_OUTPUT "" true
  let s := bsend s CMD_DATA_DELIMITER_COMMA_CR_LF "" true
  let s := bsend s CMD_QUERY_OUTPUT_SCALING "" true
  let s := bsend s CMD_MEASUREMENT_RATE
    (match RATE_MAP_HZ_TO_CODE s.1.measurement_rate_hz with
     | some c => toString c
     | none => "None") true
  start_measuring s

/-- The whole start sequence (`on_start` → `reset`, timer → `reset_2`,
timer → `reset_3`), with the outbound items accumulated in order. -/
def balanceStart (st : BState) (baudrate : Nat) (parity : Char) :
    BState × List OutItem :=
  reset_3 (reset_2 (reset (st, [])) baudrate parity)

/-- The `BalanceController.value_to_mass`.  Note that `Rat` division is
total; the zero-denominator case `refload_value = zero_value` is the
subject of the calibration invariant proved below. -/
def value_to_mass (st : BState) (value : Int) : Option Rat :=
  match st.refload_value, st.zero_value, st.refload_mass_kg with
  | some refload, some zero, some refload_mass =>
    some (refload_mass * ((value : Rat) - (zero : Rat))
          / ((refload : Rat) - (zero : Rat)))
  | _, _, _ => none

/-- The `while len(recent) >= stability_n: recent.pop(0)` loop. -/
def trimWindow (n : Nat) : List Rat → List Rat
  | [] => []
  | x :: xs => if n ≤ (x :: xs).length then trimWindow n xs else x :: xs

/-- Python `min` of a list (`none` on the empty list, where Python
raises; unreachable in `process_value`). -/
def listMin : List Rat → Option Rat
  | [] => none
  | x :: xs => some (xs.foldl min x)

/-- Python `max` of a list. -/
def listMax : List Rat → Option Rat
  | [] => none
  | x :: xs => some (xs.foldl max x)

/-- The `BalanceController.process_value`: convert, slide the window, and
emit a stable `MassSingleEvent` when the checks pass. -/
def process_value (st : BState) (value : Int) (timestamp : Rat) :
    BState × Option MassSingleEvent :=
  match value_to_mass st value with
  | none => (st, none)
  | some mass_kg =>
    let recent := trimWindow st.stability_n st.recent_measurements_kg ++ [mass_kg]
    let st := { st with recent_measurements_kg := recent }
    if mass_kg < st.min_mass_kg then (st, none)
    else if recent.length < st.stability_n then (st, none)
    else
      match listMin recent, listMax recent with
      | some min_kg, some max_kg =>
        if st.tolerance_kg < max_kg - min_kg then (st, none)
        else (st, some ⟨st.balance_id, st.reader_id, mass_kg, timestamp⟩)
      | _, _ => (st, none)

/-- The `BalanceController.report_calibration`. -/
def report_calibration (st : BState) : CalibrationReport :=
  ⟨st.balance_id, st.zero_value, st.refload_value⟩

/-- The guard `if self.refload_value == self.zero_value:
self.refload_value = None` shared by `tare_with` and
`calibrate_with`. -/
def clearRefloadIfEqual (st : BState) : BState :=
  if st.refload_value = st.zero_value then
    { st with refload_value := none } else st

/-- The `BalanceController.tare_with`. -/
def tare_with (st : BState) (value : Int) :
    BState × Option CalibrationReport :=
  let st := { st with pending_tare := false }
  if some value = st.zero_value then (st, none)
  else
    let st : BState :=
      match st.zero_value with
      | none => { st with zero_value := some value }
      | some zero =>
        let delta := value - zero
        let st := { st with zero_value := some (zero + delta) }
        match st.refload_value with
        | some refload => { st with refload_value := some (refload + delta) }
        | none => st
    let st := clearRefloadIfEqual st
    (st, some (report_calibration st))

/-- The `BalanceController.calibrate_with`. -/
def calibrate_with (st : BState) (value : Int) :
    BState × Option CalibrationReport :=
  let st := { st with pending_calibrate := false }
  if some value = st.refload_value then (st, none)
  else
    let st := { st with refload_value := some value }
    let st := clearRefloadIfEqual st
    (st, some (report_calibration st))

/-- The method `def read_until(self, read_until)` at
`weigh/balance.py:191` as its body reads; `now` is the wall clock at the
call.  This method is unreachable: see `on_rfid`. -/
def read_until_method (st : BState) (t now : Rat) : BState × List OutItem :=
  let st := { st with read_until := t }
  if st.read_continuously then (st, [])
  else if st.n_pending_measurements = 0 ∧ now < t then start_measuring (st, [])
  else (st, [])

/-- The `BalanceController.on_rfid`.  On a mismatched event it warns and
returns.  On a matching event the source executes
`self.read_until(read_until)`; but `__init__` (`weigh/balance.py:127`)
stores a datetime in the instance attribute `self.read_until`, which
shadows the method of the same name (`weigh/balance.py:191`), so the
call raises `TypeError` — modelled as `Except.error`. -/
def on_rfid (st : BState) (ev : RfidSingleEvent) : Except String BState :=
  if ev.reader_id ≠ st.reader_id ∨ ev.balance_id ≠ st.balance_id then
    .ok st
  else
    .error "TypeError: datetime.datetime object is not callable"

/-- The calibration invariant: `refload_value`, when set, differs from
`zero_value`. -/
def calInvariant (st : BState) : Prop :=
  match st.refload_value with
  | none => True
  | some r => st.zero_value ≠ some r

/-- A configured controller state with the identity calibration
(`zero = 0`, `refload = 1`, `refload_mass = 1 kg`, so a raw value `v`
converts to `v` kg), window size 2, tolerance 10 kg, minimum 5 kg. -/
def stW2 : BState where
  balance_id := 1
  reader_id := 2
  stability_n := 2
  tolerance_kg := 10
  min_mass_kg := 5
  measurement_rate_hz := 6
  read_continuously := false
  zero_value := some 0
  refload_value := some 1
  refload_mass_kg := some 1
  rfid_effective_time_s := 5
  command_queue := []
  n_pending_measurements := 0
  read_until := 0
  recent_measurements_kg := []
  pending_calibrate := false
  pending_tare := false

/-- The `stW2` with the window after one converted mass 0. -/
def stW2a : BState := { stW2 with recent_measurements_kg := [0] }

/-- The `stW2` with the window after converted masses 0 then 5. -/
def stW2b : BState := { stW2 with recent_measurements_kg := [0, 5] }

/-- A controller state configured for a 3 Hz measurement rate. -/
def stRate3 : BState :=
  { stW2 with measurement_rate_hz := 3 }

/-- A controller state paired with reader 7, balance id 3. -/
def stPair : BState :=
  { stW2 with balance_id := 3, reader_id := 7 }

/-- An RFID event matching `stPair`. -/
def evPair : RfidSingleEvent where
  reader_id := 7
  balance_id := 3
  timestamp := 100

/-- The calibration of spec scenario 5: `zero = 100`,
`refload = 1100`, `refload_mass = 1 kg`. -/
def stCal : BState :=
  { stW2 with zero_value := some 100, refload_value := some 1100 }

end Balance

/-! ## Persistence (`weigh/models.py`) -/

namespace Models

/-- A persisted `RfidEvent` row. -/
structure RfidEventRec where
  reader_id : Int
  rfid : Int
  first_detected_at : Rat
  last_detected_at : Rat
  n_events : Nat
deriving DecidableEq

/-- A `BalanceConfig` row, keeping only the fields
`record_mass_detection` reads: the primary key and the one-to-one
`reader` relationship (the id of the paired `RfidConfig`, or `none`). -/
structure BalanceConfigRec where
  id : Int
  reader : Option Int
deriving DecidableEq

/-- The transient `MassSingleEvent` of `weigh/models.py` (`balance_id`,
`mass`, `units`, `timestamp`). -/
structure MassSingleEventM where
  balance_id : Int
  mass : Rat
  units : String
  timestamp : Rat
deriving DecidableEq

/-- The `MassSingleEvent.get_kg`; the unknown-units `ValueError` is
modelled as `none`. -/
def get_kg (e : MassSingleEventM) : Option Rat :=
  if e.units = "mg" then some (e.mass / 1000000)
  else if e.units = "g" then some (e.mass / 1000)
  else if e.units = "kg" then some e.mass
  else none

/-- A persisted `MassIdentifiedEvent` row (the source column `at` is a
Lean keyword, hence `at_`). -/
structure MassIdentifiedEventRec where
  rfid : Int
  reader_id : Int
  balance_id : Int
  at_ : Rat
  mass_kg : Rat
deriving DecidableEq

/-- The `RfidEvent.get_ongoing_event_at_reader`: the first stored RFID
event at this reader whose `last_detected_at` is at least
`now - rfid_effective_time_s` (the session is modelled as the list of
rows in query order). -/
def get_ongoing_event_at_reader (events : List RfidEventRec)
    (reader_id : Int) (now rfid_effective_time_s : Rat) :
    Option RfidEventRec :=
  let most_recent_of_interest := now - rfid_effective_time_s
  events.find? (fun e =>
    decide (e.reader_id = reader_id) &&
    decide (most_recent_of_interest ≤ e.last_detected_at))

/-- The `MassIdentifiedEvent.record_mass_detection`: look up the balance,
its paired reader, and an ongoing RFID event there; persist (and
return) a `MassIdentifiedEvent` only when all three exist. -/
def record_mass_detection (balances : List BalanceConfigRec)
    (events : List RfidEventRec) (mse : MassSingleEventM)
    (rfid_effective_time_s : Rat) : Option MassIdentifiedEventRec :=
  match balances.find? (fun b => decide (b.id = mse.balance_id)) with
  | none => none
  | some balance =>
    match balance.reader with
    | none => none
    | some reader_id =>
      match get_ongoing_event_at_reader events reader_id mse.timestamp
          rfid_effective_time_s with
      | none => none
      | some rfid_event =>
        match get_kg mse with
        | none => none
        | some kg =>
          some ⟨rfid_event.rfid, reader_id, mse.balance_id, mse.timestamp, kg⟩

/-- One balance (id 1) paired with reader 2. -/
def balancesEx : List BalanceConfigRec := [⟨1, some 2⟩]

/-- One stored RFID event at reader 2 whose age relative to time 10 is
exactly the 5 s effective window. -/
def rfidEventsEx : List RfidEventRec := [⟨2, 208210000479322, 5, 5, 1⟩]

/-- A 50 g mass on balance 1 at time 10. -/
def mseEx : MassSingleEventM := ⟨1, 50, "g", 10⟩

end Models

/-! ## Serial writer queue (`starfeeder/serial_controller.py`,
`SerialWriter`) -/

namespace Writer

/-- Externally visible actions of the writer thread: a write of a full
framed message to the port, or arming the single-shot delay timer. -/
inductive WAction where
  | write (data : String)
  | startWait (delay_ms : Nat)
deriving DecidableEq

/-- The writer state: the outbound deque of `(data, delay_ms)` pairs and
the `busy` flag. -/
structure WriterState where
  queue : List (String × Nat)
  busy : Bool
deriving DecidableEq

/-- Events serialised onto the writer thread: a `send` slot call or the
delay timer firing (`process_queue`). -/
inductive WEvent where
  | send (data : String) (delay_ms : Nat)
  | tick
deriving DecidableEq

/-- The `SerialWriter.process_queue`: clears `busy`, then pops entries; a
zero-delay entry is written (data followed by `tx_eol`) and the loop
continues; a positive-delay entry is pushed back with zero delay, the
timer is armed with the delay, and the loop returns.  Result:
(new queue, new busy flag, actions in order). -/
def processQueue (eol : String) :
    List (String × Nat) → List (String × Nat) × Bool × List WAction
  | [] => ([], false, [])
  | (data, 0) :: rest =>
    let r := processQueue eol rest
    (r.1, r.2.1, .write (data ++ eol) :: r.2.2)
  | (data, d + 1) :: rest => ((data, 0) :: rest, true, [.startWait (d + 1)])

/-- One serialised event on the writer thread (`send` appends and, when
not busy, immediately runs `process_queue`; `tick` is the timer callback
running `process_queue`). -/
def wstep (eol : String) (st : WriterState) :
    WEvent → WriterState × List WAction
  | .send data delay_ms =>
    let q := st.queue ++ [(data, delay_ms)]
    if st.busy then (⟨q, true⟩, [])
    else
      let r := processQueue eol q
      (⟨r.1, r.2.1⟩, r.2.2)
  | .tick =>
    let r := processQueue eol st.queue
    (⟨r.1, r.2.1⟩, r.2.2)

/-- Run a sequence of events, accumulating the emitted actions. -/
def wrun (eol : String) (st : WriterState) :
    List WEvent → WriterState × List WAction
  | [] => (st, [])
  | e :: es =>
    let r := wstep eol st e
    let r2 := wrun eol r.1 es
    (r2.1, r.2 ++ r2.2)

/-- The data actually written, in order. -/
def writesOf (as : List WAction) : List String :=
  as.filterMap (fun a => match a with
    | .write d => some d
    | .startWait _ => none)

/-- The data passed to `send`, in call order. -/
def sentDatas (evs : List WEvent) : List String :=
  evs.filterMap (fun e => match e with
    | .send d _ => some d
    | .tick => none)

/-- The framed messages still pending in a queue. -/
def pendingDatas (eol : String) (q : List (String × Nat)) : List String :=
  q.map (fun p => p.1 ++ eol)

end Writer

/-! ## Stability detector with unlock

The deployed (starfeeder-era) balance controller consumes
`BalanceConfig.unlock_mass_kg` (`starfeeder/models.py:254`), but the
module holding that controller is not part of this source snapshot, so
its window-clearing step is modelled from the specification. -/

namespace Stability

/-- State of the per-balance stability detector. -/
structure SDState where
  stability_n : Nat
  tolerance_kg : Rat
  min_mass_kg : Rat
  unlock_mass_kg : Rat
  window : List Rat
deriving DecidableEq

/-- Modelled from the spec: the starfeeder balance controller that
implements the unlock policy is absent from the source tree (only the
`unlock_mass_kg` configuration column and its GUI validation are
present).  Following spec §4.5: append the mass, discard the oldest
entries beyond capacity; judge not-stable when the mass is below
`min_mass_kg`, the window is not yet full, or the range exceeds
`tolerance_kg`, otherwise stable with the most recent sample; finally,
when the mass is below `unlock_mass_kg`, clear the window. -/
def sd_process (st : SDState) (m : Rat) : SDState × Option Rat :=
  let w0 := st.window ++ [m]
  let w := if w0.length ≤ st.stability_n then w0
    else w0.drop (w0.length - st.stability_n)
  let stable : Option Rat :=
    if m < st.min_mass_kg then none
    else if w.length < st.stability_n then none
    else
      match Balance.listMin w, Balance.listMax w with
      | some mn, some mx =>
        if st.tolerance_kg < mx - mn then none else some m
      | _, _ => none
  let w := if m < st.unlock_mass_kg then ([] : List Rat) else w
  ({ st with window := w }, stable)

/-- Process a sequence of masses, collecting the judgements. -/
def sd_run (st : SDState) : List Rat → SDState × List (Option Rat)
  | [] => (st, [])
  | m :: ms =>
    let r := sd_process st m
    let r2 := sd_run r.1 ms
    (r2.1, r.2 :: r2.2)

/-- The configuration of spec scenario 2 (`stability_n = 3`,
`tolerance = 0.001`, `min = 0.050`, `unlock = 0.010`) with a full,
stable window. -/
def sdEx : SDState where
  stability_n := 3
  tolerance_kg := 1 / 1000
  min_mass_kg := 1 / 20
  unlock_mass_kg := 1 / 100
  window := [1 / 20, 1 / 20, 1 / 20]

end Stability

/-! ## Properties of the decimal-string helpers -/

theorem parseDec_foldl (t : List Char) :
    ∀ a : Nat, t.foldl (fun a c => 10 * a + decVal c) a =
      a * 10 ^ t.length + parseDec t := by
  induction t with
  | nil => intro a; simp [parseDec]
  | cons c t ih =>
    intro a
    have h1 : parseDec (c :: t) = decVal c * 10 ^ t.length + parseDec t := by
      show List.foldl _ (10 * 0 + decVal c) t = _
      rw [ih (10 * 0 + decVal c)]
      ring
    simp only [List.foldl_cons, List.length_cons, h1]
    rw [ih (10 * a + decVal c)]
    ring

theorem parseDec_cons (c : Char) (l : List Char) :
    parseDec (c :: l) = decVal c * 10 ^ l.length + parseDec l := by
  show List.foldl _ (10 * 0 + decVal c) l = _
  rw [parseDec_foldl]
  ring

theorem parseDec_append (l t : List Char) :
    parseDec (l ++ t) = parseDec l * 10 ^ t.length + parseDec t := by
  simp only [parseDec, List.foldl_append]
  exact parseDec_foldl t _

theorem parseDec_replicate_zero (k : Nat) :
    parseDec (List.replicate k '0') = 0 := by
  induction k with
  | zero => rfl
  | succ k ih =>
    rw [List.replicate_succ, parseDec_cons, ih,
      show decVal '0' = 0 from by decide]
    simp

theorem parseDec_zfill (k : Nat) (l : List Char) :
    parseDec (zfill k l) = parseDec l := by
  unfold zfill
  rw [parseDec_append, parseDec_replicate_zero]
  ring

theorem decVal_digitChar (d : Nat) (h : d < 10) :
    decVal (digitChar d) = d := by
  interval_cases d <;> decide

theorem parseDec_natStrAux (fuel : Nat) :
    ∀ n, n ≤ fuel → parseDec (natStrAux fuel n) = n := by
  induction fuel with
  | zero =>
    intro n h
    interval_cases n
    rfl
  | succ fuel ih =>
    intro n h
    unfold natStrAux
    by_cases h0 : n = 0
    · simp [h0, parseDec]
    · simp only [h0, if_false]
      have hfuel : n / 10 ≤ fuel := by
        have := Nat.div_lt_self (Nat.pos_of_ne_zero h0) (by norm_num : 1 < 10)
        omega
      rw [parseDec_append, ih (n / 10) hfuel]
      have hd : parseDec [digitChar (n % 10)] = n % 10 := by
        simp [parseDec, decVal_digitChar (n % 10) (Nat.mod_lt n (by norm_num))]
      rw [hd]
      simp only [List.length_singleton, pow_one]
      omega

theorem parseDec_natStr (n : Nat) : parseDec (natStr n) = n := by
  unfold natStr
  by_cases h : n = 0
  · simp [h]; rfl
  · simp only [h, if_false]
    exact parseDec_natStrAux (n + 1) n (by omega)

theorem natStrAux_length (fuel : Nat) :
    ∀ n k, n ≤ fuel → n < 10 ^ k → (natStrAux fuel n).length ≤ k := by
  induction fuel with
  | zero =>
    intro n k h _
    interval_cases n
    simp [natStrAux]
  | succ fuel ih =>
    intro n k h hk
    unfold natStrAux
    by_cases h0 : n = 0
    · simp [h0]
    · simp only [h0, if_false, List.length_append, List.length_singleton]
      have hk1 : 1 ≤ k := by
        rcases Nat.eq_zero_or_pos k with hk0 | hk0
        · subst hk0; simp at hk; omega
        · exact hk0
      have hpow : 10 ^ k = 10 ^ (k - 1) * 10 := by
        conv_lhs => rw [← Nat.sub_add_cancel hk1]
        rw [pow_succ]
      have hk2 : n < 10 * 10 ^ (k - 1) := by rw [mul_comm, ← hpow]; exact hk
      have hdiv : n / 10 < 10 ^ (k - 1) := Nat.div_lt_of_lt_mul hk2
      have hfuel : n / 10 ≤ fuel := by
        have := Nat.div_lt_self (Nat.pos_of_ne_zero h0) (by norm_num : 1 < 10)
        omega
      have := ih (n / 10) (k - 1) hfuel hdiv
      omega

theorem natStr_length_le (n k : Nat) (hk : 1 ≤ k) (h : n < 10 ^ k) :
    (natStr n).length ≤ k := by
  unfold natStr
  by_cases h0 : n = 0
  · simpa [h0] using hk
  · simp only [h0, if_false]
    exact natStrAux_length (n + 1) n k (by omega) h

theorem zfill_length (k : Nat) (l : List Char) (h : l.length ≤ k) :
    (zfill k l).length = k := by
  simp [zfill]
  omega

theorem parseDec_pad_concat (c n : Nat) (h : n < 10 ^ 12) :
    parseDec (natStr c ++ zfill 12 (natStr n)) = c * 10 ^ 12 + n := by
  rw [parseDec_append,
    zfill_length 12 _ (natStr_length_le n 12 (by norm_num) h),
    parseDec_zfill, parseDec_natStr, parseDec_natStr]

theorem bits_foldl_lt (l : List Bool) :
    ∀ a : Nat, l.foldl (fun a b => 2 * a + (if b then 1 else 0)) a <
      (a + 1) * 2 ^ l.length := by
  induction l with
  | nil => intro a; simp
  | cons b l ih =>
    intro a
    simp only [List.foldl_cons, List.length_cons]
    have h1 := ih (2 * a + (if b then 1 else 0))
    have h2 : (2 * a + (if b then 1 else 0) + 1) * 2 ^ l.length ≤
        (a + 1) * 2 ^ (l.length + 1) := by
      have hb : (if b then 1 else 0) ≤ 1 := by cases b <;> simp
      have : 2 * a + (if b then 1 else 0) + 1 ≤ 2 * (a + 1) := by omega
      calc (2 * a + (if b then 1 else 0) + 1) * 2 ^ l.length
          ≤ 2 * (a + 1) * 2 ^ l.length := Nat.mul_le_mul_right _ this
        _ = (a + 1) * 2 ^ (l.length + 1) := by ring
    exact lt_of_lt_of_le h1 h2

theorem bitsToNat_lt (l : List Bool) :
    Rfid.bitsToNat l < 2 ^ l.length := by
  have := bits_foldl_lt l 0
  simpa [Rfid.bitsToNat] using this

theorem hexToBits_isSome (l : List Char)
    (h : ∀ c ∈ l, (Rfid.hexVal c).isSome) :
    ∃ bs, Rfid.hexToBits l = some bs := by
  induction l with
  | nil => exact ⟨[], rfl⟩
  | cons c cs ih =>
    obtain ⟨v, hv⟩ := Option.isSome_iff_exists.mp (h c (by simp))
    obtain ⟨bs, hbs⟩ := ih (fun x hx => h x (by simp [hx]))
    exact ⟨Rfid.nibbleBits v ++ bs, by simp [Rfid.hexToBits, hv, hbs]⟩

theorem hexToBits_none_of_bad (l : List Char)
    (h : ∃ c ∈ l, Rfid.hexVal c = none) :
    Rfid.hexToBits l = none := by
  induction l with
  | nil => simp at h
  | cons c cs ih =>
    obtain ⟨x, hx, hbad⟩ := h
    rcases List.mem_cons.mp hx with rfl | hx
    · simp [Rfid.hexToBits, hbad]
    · unfold Rfid.hexToBits
      rw [ih ⟨x, hx, hbad⟩]
      cases Rfid.hexVal c <;> rfl

/-- Claim C3 (corrected): the general FDX-B round-trip holds (the
decoded number is `country * 10 ^ 12 + national_id`), but on the input
`Z5A2080A70C2C0001` the decoder returns `208210000479322`, not the
`826000000001060` asserted by the claim. -/
theorem c3_ztag_counterexample :
    Rfid.ztag_to_rfid_number ("Z5A2080A70C2C0001".toList) =
      .ok 208210000479322 ∧
    Rfid.ztag_to_rfid_number ("Z5A2080A70C2C0001".toList) ≠
      .ok 826000000001060 := by
  constructor
  · decide
  · decide

/-- Claim C3 (amended): for any line `Z` followed by 16 hexadecimal
characters, `ztag_to_rfid_number` returns exactly
`country * 10 ^ 12 + national_id`, where `national_id` is the
bit-reversed 38-bit field and `country` the bit-reversed 10-bit field of
the 64 decoded bits; on `Z5A2080A70C2C0001` this number is
`208210000479322`. -/
theorem c3_ztag_roundtrip (hexcode : List Char) (h16 : hexcode.length = 16)
    (hhex : ∀ c ∈ hexcode, (Rfid.hexVal c).isSome) :
    (∃ bits, Rfid.hexToBits hexcode = some bits ∧
      Rfid.ztag_to_rfid_number ('Z' :: hexcode) =
        .ok (Rfid.bitsToNat ((bits.drop 38).take 10).reverse * 10 ^ 12 +
             Rfid.bitsToNat (bits.take 38).reverse)) ∧
    Rfid.ztag_to_rfid_number ("Z5A2080A70C2C0001".toList) =
      .ok 208210000479322 := by
  refine ⟨?_, by decide⟩
  obtain ⟨bits, hbits⟩ := hexToBits_isSome hexcode hhex
  refine ⟨bits, hbits, ?_⟩
  unfold Rfid.ztag_to_rfid_number
  rw [if_pos (by simp [h16])]
  simp only [List.drop_succ_cons, List.drop_zero]
  rw [hbits]
  have hlt : Rfid.bitsToNat (bits.take 38).reverse < 10 ^ 12 := by
    have h1 : ((bits.take 38).reverse).length ≤ 38 := by
      simp [List.length_reverse, List.length_take]
    have h2 := bitsToNat_lt (bits.take 38).reverse
    have h3 : (2 : Nat) ^ ((bits.take 38).reverse).length ≤ 2 ^ 38 :=
      Nat.pow_le_pow_right (by norm_num) h1
    have h4 : (2 : Nat) ^ 38 < 10 ^ 12 := by norm_num
    omega
  simp only [parseDec_pad_concat _ _ hlt]

/-- A witness for claim C3 on the concrete spec input. -/
theorem c3_ztag_roundtrip_witness :
    ("5A2080A70C2C0001".toList.length = 16 ∧
      ∀ c ∈ "5A2080A70C2C0001".toList, (Rfid.hexVal c).isSome) ∧
    ((∃ bits, Rfid.hexToBits "5A2080A70C2C0001".toList = some bits ∧
      Rfid.ztag_to_rfid_number ('Z' :: "5A2080A70C2C0001".toList) =
        .ok (Rfid.bitsToNat ((bits.drop 38).take 10).reverse * 10 ^ 12 +
             Rfid.bitsToNat (bits.take 38).reverse)) ∧
    Rfid.ztag_to_rfid_number ("Z5A2080A70C2C0001".toList) =
      .ok 208210000479322) :=
  ⟨⟨by decide, by decide⟩,
   c3_ztag_roundtrip "5A2080A70C2C0001".toList (by decide) (by decide)⟩

/-- Claim C9 (corrected): an input of the right length and prefix whose
trailing 16 characters are not all hexadecimal does not yield `None`
(Unknown); the `bitstring` call raises instead. -/
theorem c9_badhex_counterexample :
    Rfid.ztag_to_rfid_number ('Z' :: List.replicate 16 'G') =
      .exn "bitstring: invalid hex initialiser" ∧
    Rfid.ztag_to_rfid_number ('Z' :: List.replicate 16 'G') ≠
      .invalid := by
  constructor
  · decide
  · decide

/-- Claim C9 (amended): an input whose length is not 17 or whose first
character is not `Z` yields `None` (classified Unknown, logged,
controller continues); an input of the right shape with some non-hex
character among the trailing 16 makes `ztag_to_rfid_number` raise an
exception from the bit-parsing library instead of returning `None`. -/
theorem c9_unknown_classification (l : List Char) :
    (l.length ≠ 17 ∨ l.head? ≠ some 'Z' →
      Rfid.ztag_to_rfid_number l = .invalid) ∧
    (l.length = 17 → l.head? = some 'Z' →
      (∃ c ∈ l.drop 1, Rfid.hexVal c = none) →
      Rfid.ztag_to_rfid_number l =
        .exn "bitstring: invalid hex initialiser") := by
  constructor
  · intro h
    unfold Rfid.ztag_to_rfid_number
    rw [if_neg]
    tauto
  · intro h17 hz hbad
    unfold Rfid.ztag_to_rfid_number
    rw [if_pos ⟨h17, hz⟩]
    simp only [hexToBits_none_of_bad _ hbad]

/-! ## Properties of the balance controller -/

theorem trimWindow_length_le (n : Nat) (l : List Rat) (hn : 1 ≤ n) :
    (Balance.trimWindow n l).length ≤ n - 1 := by
  induction l with
  | nil => simp [Balance.trimWindow]
  | cons x xs ih =>
    unfold Balance.trimWindow
    split_ifs with h
    · exact ih
    · simp only [List.length_cons] at *
      omega

theorem listMin_isSome (l : List Rat) (h : l ≠ []) :
    ∃ mn, Balance.listMin l = some mn := by
  cases l with
  | nil => exact absurd rfl h
  | cons x xs => exact ⟨xs.foldl min x, rfl⟩

theorem listMax_isSome (l : List Rat) (h : l ≠ []) :
    ∃ mx, Balance.listMax l = some mx := by
  cases l with
  | nil => exact absurd rfl h
  | cons x xs => exact ⟨xs.foldl max x, rfl⟩

/-- Claim C1 (corrected): from the identity-calibrated state `stW2`
(window 2, tolerance 10, minimum 5), processing the raw values 0 then 5
emits a stable event although the window still contains the mass 0,
which is below `min_mass_kg`: the source checks the threshold only on
the newest mass, not on every mass in the window. -/
theorem c1_stability_counterexample :
    Balance.process_value Balance.stW2 0 0 = (Balance.stW2a, none) ∧
    Balance.process_value Balance.stW2a 5 1 =
      (Balance.stW2b, some ⟨1, 2, 5, 1⟩) ∧
    Balance.stW2b.recent_measurements_kg = [0, 5] ∧
    ¬ (∀ m ∈ Balance.stW2b.recent_measurements_kg,
        Balance.stW2.min_mass_kg ≤ m) := by
  refine ⟨?_, ?_, ?_, ?_⟩ <;>
    norm_num [Balance.process_value, Balance.value_to_mass, Balance.stW2,
      Balance.stW2a, Balance.stW2b, Balance.trimWindow, Balance.listMin,
      Balance.listMax]

/-- Claim C1 (amended): `process_value` emits a stable event only when
the window holds exactly the last `stability_n` converted masses, the
newest mass is at least `min_mass_kg`, and the window range is at most
`tolerance_kg`; the representative mass of the event is the most recent
sample (the threshold is not checked on the older window entries). -/
theorem c1_stable_emission (st : Balance.BState) (value : Int) (ts : Rat)
    (st' : Balance.BState) (ev : Balance.MassSingleEvent)
    (hn : 1 ≤ st.stability_n)
    (h : Balance.process_value st value ts = (st', some ev)) :
    st'.recent_measurements_kg.length = st.stability_n ∧
    Balance.value_to_mass st value = some ev.mass_kg ∧
    st'.recent_measurements_kg.getLast? = some ev.mass_kg ∧
    st.min_mass_kg ≤ ev.mass_kg ∧
    (∃ mn mx, Balance.listMin st'.recent_measurements_kg = some mn ∧
      Balance.listMax st'.recent_measurements_kg = some mx ∧
      mx - mn ≤ st.tolerance_kg) ∧
    ev.balance_id = st.balance_id ∧ ev.reader_id = st.reader_id ∧
    ev.timestamp = ts := by
  unfold Balance.process_value at h
  cases hm : Balance.value_to_mass st value with
  | none => rw [hm] at h; simp at h
  | some mass =>
    rw [hm] at h
    dsimp only at h
    set recent :=
      Balance.trimWindow st.stability_n st.recent_measurements_kg ++ [mass]
      with hrecent
    split_ifs at h with h1 h2
    · simp at h
    · simp at h
    · obtain ⟨mn, hmn⟩ := listMin_isSome recent (by simp [hrecent])
      obtain ⟨mx, hmx⟩ := listMax_isSome recent (by simp [hrecent])
      rw [hmn, hmx] at h
      dsimp only at h
      split_ifs at h with h3
      · simp at h
      · have hlen : recent.length = st.stability_n := by
          have hle :
              (Balance.trimWindow st.stability_n
                st.recent_measurements_kg).length ≤ st.stability_n - 1 :=
            trimWindow_length_le _ _ hn
          simp only [hrecent, List.length_append, List.length_singleton] at h2 ⊢
          omega
        rw [Prod.mk.injEq] at h
        obtain ⟨hst, hev⟩ := h
        obtain rfl := hst
        obtain rfl := Option.some.inj hev
        refine ⟨hlen, rfl, ?_, not_lt.mp h1,
          ⟨mn, mx, hmn, hmx, not_lt.mp h3⟩, rfl, rfl, rfl⟩
        simp [hrecent, List.getLast?_concat]

/-- A witness for claim C1: the emission after masses 0 then 5 from
`stW2` satisfies the amended characterisation. -/
theorem c1_stable_emission_witness :
    1 ≤ Balance.stW2a.stability_n ∧
    Balance.process_value Balance.stW2a 5 1 =
      (Balance.stW2b, some ⟨1, 2, 5, 1⟩) ∧
    (Balance.stW2b.recent_measurements_kg.length =
        Balance.stW2a.stability_n ∧
      Balance.value_to_mass Balance.stW2a 5 =
        some (⟨1, 2, 5, 1⟩ : Balance.MassSingleEvent).mass_kg ∧
      Balance.stW2b.recent_measurements_kg.getLast? =
        some (⟨1, 2, 5, 1⟩ : Balance.MassSingleEvent).mass_kg ∧
      Balance.stW2a.min_mass_kg ≤
        (⟨1, 2, 5, 1⟩ : Balance.MassSingleEvent).mass_kg ∧
      (∃ mn mx,
        Balance.listMin Balance.stW2b.recent_measurements_kg = some mn ∧
        Balance.listMax Balance.stW2b.recent_measurements_kg = some mx ∧
        mx - mn ≤ Balance.stW2a.tolerance_kg) ∧
      (⟨1, 2, 5, 1⟩ : Balance.MassSingleEvent).balance_id =
        Balance.stW2a.balance_id ∧
      (⟨1, 2, 5, 1⟩ : Balance.MassSingleEvent).reader_id =
        Balance.stW2a.reader_id ∧
      (⟨1, 2, 5, 1⟩ : Balance.MassSingleEvent).timestamp = 1) :=
  ⟨by norm_num [Balance.stW2a, Balance.stW2],
   by norm_num [Balance.process_value, Balance.value_to_mass, Balance.stW2,
     Balance.stW2a, Balance.stW2b, Balance.trimWindow, Balance.listMin,
     Balance.listMax],
   c1_stable_emission Balance.stW2a 5 1 Balance.stW2b ⟨1, 2, 5, 1⟩
     (by norm_num [Balance.stW2a, Balance.stW2])
     (by norm_num [Balance.process_value, Balance.value_to_mass,
       Balance.stW2, Balance.stW2a, Balance.stW2b, Balance.trimWindow,
       Balance.listMin, Balance.listMax])⟩

theorem calInvariant_clearRefload (s : Balance.BState) :
    Balance.calInvariant (Balance.clearRefloadIfEqual s) := by
  unfold Balance.clearRefloadIfEqual
  split_ifs with h
  · exact trivial
  · unfold Balance.calInvariant
    cases hre : s.refload_value with
    | none => trivial
    | some r =>
      rw [hre] at h
      exact fun he => h he.symm

/-- Claim C8: when both calibration points are set and a tare arrives
with a value `v` different from `zero_value`, `tare_with` moves
`zero_value` to `v`, shifts `refload_value` by the same delta (so the
mass scale `refload_value - zero_value` is unchanged), clears
`refload_value` when it would coincide with `zero_value`, and emits a
`CalibrationReport` of the new points. -/
theorem c8_tare_shifts (st : Balance.BState) (z r v : Int)
    (hz : st.zero_value = some z) (hr : st.refload_value = some r)
    (hv : v ≠ z) :
    (Balance.tare_with st v).1.zero_value = some v ∧
    (Balance.tare_with st v).1.refload_value =
      (if r + (v - z) = v then none else some (r + (v - z))) ∧
    (∀ r', (Balance.tare_with st v).1.refload_value = some r' →
      r' - v = r - z) ∧
    (Balance.tare_with st v).2 =
      some ⟨st.balance_id, some v,
        (Balance.tare_with st v).1.refload_value⟩ := by
  have hzz : z + (v - z) = v := by omega
  have hkey : Balance.tare_with st v =
      (Balance.clearRefloadIfEqual
        { st with
            pending_tare := false
            zero_value := some (z + (v - z))
            refload_value := some (r + (v - z)) },
       some (Balance.report_calibration (Balance.clearRefloadIfEqual
        { st with
            pending_tare := false
            zero_value := some (z + (v - z))
            refload_value := some (r + (v - z)) }))) := by
    unfold Balance.tare_with
    dsimp only
    rw [hz]
    rw [if_neg (by simp [hv])]
    rw [hr]
  rw [hkey]
  unfold Balance.clearRefloadIfEqual Balance.report_calibration
  dsimp only
  split_ifs with hc h1
  · dsimp only
    exact ⟨by rw [hzz], rfl, fun r' h => by simp at h, by rw [hzz]⟩
  · exfalso
    simp only [Option.some.injEq] at hc
    omega
  · exfalso
    simp only [Option.some.injEq] at hc
    omega
  · dsimp only
    refine ⟨by rw [hzz], rfl, ?_, by rw [hzz]⟩
    intro r' h
    simp only [Option.some.injEq] at h
    omega

/-- A witness for claim C8: spec scenario 5 (`zero = 100`,
`refload = 1100`, tare value 150 gives `zero = 150`,
`refload = 1150`). -/
theorem c8_tare_shifts_witness :
    Balance.stCal.zero_value = some 100 ∧
    Balance.stCal.refload_value = some 1100 ∧
    (150 : Int) ≠ 100 ∧
    ((Balance.tare_with Balance.stCal 150).1.zero_value = some 150 ∧
      (Balance.tare_with Balance.stCal 150).1.refload_value =
        (if (1100 : Int) + (150 - 100) = 150 then none
         else some (1100 + (150 - 100))) ∧
      (∀ r', (Balance.tare_with Balance.stCal 150).1.refload_value =
          some r' → r' - 150 = 1100 - 100) ∧
      (Balance.tare_with Balance.stCal 150).2 =
        some ⟨Balance.stCal.balance_id, some 150,
          (Balance.tare_with Balance.stCal 150).1.refload_value⟩) :=
  ⟨rfl, rfl, by decide,
   c8_tare_shifts Balance.stCal 100 1100 150 rfl rfl (by decide)⟩

/-- Claim C10: `value_to_mass` never divides by zero: the calibration
operations preserve the invariant that a set `refload_value` differs
from `zero_value` (it is cleared whenever it would become equal), the
conversion returns `none` whenever any calibration field is unset, and
under the invariant the divisor `refload_value - zero_value` is
nonzero. -/
theorem c10_no_div_by_zero (st : Balance.BState) (v : Int) :
    (Balance.calInvariant st →
      Balance.calInvariant (Balance.tare_with st v).1 ∧
      Balance.calInvariant (Balance.calibrate_with st v).1) ∧
    (st.zero_value = none ∨ st.refload_value = none ∨
        st.refload_mass_kg = none →
      Balance.value_to_mass st v = none) ∧
    (Balance.calInvariant st →
      ∀ z r, st.zero_value = some z → st.refload_value = some r →
        ((r : Rat) - (z : Rat)) ≠ 0) := by
  refine ⟨fun hinv => ⟨?_, ?_⟩, ?_, ?_⟩
  · unfold Balance.tare_with
    dsimp only
    split_ifs with h0
    · exact hinv
    · exact calInvariant_clearRefload _
  · unfold Balance.calibrate_with
    dsimp only
    split_ifs with h0
    · exact hinv
    · exact calInvariant_clearRefload _
  · intro h
    unfold Balance.value_to_mass
    rcases h with h | h | h <;> rw [h] <;>
      cases st.zero_value <;> cases st.refload_value <;>
      cases st.refload_mass_kg <;> rfl
  · intro hinv z r hz hr
    unfold Balance.calInvariant at hinv
    rw [hr] at hinv
    rw [hz] at hinv
    have hne : z ≠ r := fun he => hinv (by rw [he])
    intro hsub
    have : (r : Rat) = (z : Rat) := by linarith
    exact hne (by exact_mod_cast this.symm)

/-- A witness for claim C10 at the identity-calibrated state. -/
theorem c10_no_div_by_zero_witness :
    Balance.calInvariant Balance.stW2 ∧
    (Balance.calInvariant (Balance.tare_with Balance.stW2 5).1 ∧
      Balance.calInvariant (Balance.calibrate_with Balance.stW2 5).1) ∧
    Balance.value_to_mass
      { Balance.stW2 with refload_mass_kg := none } 5 = none ∧
    ((1 : Rat) - (0 : Rat)) ≠ 0 := by
  have hinv : Balance.calInvariant Balance.stW2 := by
    unfold Balance.calInvariant Balance.stW2
    decide
  refine ⟨hinv, (c10_no_div_by_zero Balance.stW2 5).1 hinv, ?_, ?_⟩
  · exact (c10_no_div_by_zero
      { Balance.stW2 with refload_mass_kg := none } 5).2.1 (Or.inr (Or.inr rfl))
  · exact (c10_no_div_by_zero Balance.stW2 5).2.2 hinv 0 1 rfl rfl

theorem RATE_MAP_pos (hz code : Nat)
    (h : Balance.RATE_MAP_HZ_TO_CODE hz = some code) : 1 ≤ hz := by
  rcases Nat.eq_zero_or_pos hz with h0 | h0
  · subst h0
    rw [show Balance.RATE_MAP_HZ_TO_CODE 0 = none from rfl] at h
    exact Option.noConfusion h
  · exact h0

/-- Claim C4 (corrected): for measurement rate 3 Hz the outbound byte
stream of the start sequence ends in `ICR5;MSV?2;`
(`ceil(3 / 2) = 2` values per batch), not `ICR5;MSV?3;` as the claim
asserts. -/
theorem c4_reset_counterexample :
    Balance.outStream (Balance.balanceStart Balance.stRate3 9600 'E').2 =
      ";STP;RES;BDR9600,1;BDR?;IDN?;ESR?;COF3;TEX172;NOV?;ICR5;MSV?2;" ∧
    Balance.outStream (Balance.balanceStart Balance.stRate3 9600 'E').2 ≠
      ";STP;RES;BDR9600,1;BDR?;IDN?;ESR?;COF3;TEX172;NOV?;ICR5;MSV?3;" := by
  constructor
  · rfl
  · decide

/-- Claim C4 (amended): on balance start the outbound items are, in
order: the empty no-op command, `STP`, `RES`, the 3000 ms reset pause,
`BDR<baud>,<parity_code>`, the 200 ms baud pause, then `BDR?`, `IDN?`,
`ESR?`, `COF3`, `TEX172`, `NOV?`, `ICR<rate_code>`, followed
immediately by the first measurement command `MSV?<batch>` with
`batch = ceil(rate_hz / 2) ≥ 1` (each command terminated by `;` on the
wire); for rate 3 Hz the batch is 2, so the stream ends `ICR5;MSV?2;`. -/
theorem c4_reset_sequence (st : Balance.BState) (baudrate : Nat)
    (parity : Char) (code : Nat)
    (hc : Balance.RATE_MAP_HZ_TO_CODE st.measurement_rate_hz = some code) :
    (Balance.balanceStart st baudrate parity).2 =
      [.cmd "", .cmd "STP", .cmd "RES", .pause 3000,
       .cmd ("BDR" ++ toString baudrate ++ "," ++
         toString (if parity = 'N' then (0 : Nat) else 1)),
       .pause 200, .cmd "BDR?", .cmd "IDN?", .cmd "ESR?", .cmd "COF3",
       .cmd "TEX172", .cmd "NOV?", .cmd ("ICR" ++ toString code),
       .cmd ("MSV?" ++ toString (Balance.measurements_per_batch st))] ∧
    Balance.measurements_per_batch st =
      (st.measurement_rate_hz + 1) / 2 ∧
    1 ≤ Balance.measurements_per_batch st := by
  refine ⟨?_, rfl, ?_⟩
  · simp [Balance.balanceStart, Balance.reset, Balance.reset_2,
      Balance.reset_3, Balance.start_measuring, Balance.bsend, hc,
      Balance.CMD_NO_OP, Balance.CMD_STOP_MEASURING,
      Balance.CMD_WARM_RESTART, Balance.CMD_SET_BAUD_RATE,
      Balance.CMD_QUERY_BAUD_RATE, Balance.CMD_QUERY_IDENTIFICATION,
      Balance.CMD_QUERY_STATUS, Balance.CMD_ASCII_RESULT_OUTPUT,
      Balance.CMD_DATA_DELIMITER_COMMA_CR_LF,
      Balance.CMD_QUERY_OUTPUT_SCALING, Balance.CMD_MEASUREMENT_RATE,
      Balance.CMD_QUERY_MEASURE, Balance.RESET_PAUSE_MS,
      Balance.BAUDRATE_PAUSE_MS, Balance.measurements_per_batch,
      String.append_assoc]
  · have := RATE_MAP_pos st.measurement_rate_hz code hc
    unfold Balance.measurements_per_batch
    omega

/-- A witness for claim C4 at rate 3 Hz, 9600 baud, even parity. -/
theorem c4_reset_sequence_witness :
    Balance.RATE_MAP_HZ_TO_CODE Balance.stRate3.measurement_rate_hz =
      some 5 ∧
    ((Balance.balanceStart Balance.stRate3 9600 'E').2 =
      [.cmd "", .cmd "STP", .cmd "RES", .pause 3000,
       .cmd ("BDR" ++ toString (9600 : Nat) ++ "," ++
         toString (if ('E' : Char) = 'N' then (0 : Nat) else 1)),
       .pause 200, .cmd "BDR?", .cmd "IDN?", .cmd "ESR?", .cmd "COF3",
       .cmd "TEX172", .cmd "NOV?", .cmd ("ICR" ++ toString (5 : Nat)),
       .cmd ("MSV?" ++
         toString (Balance.measurements_per_batch Balance.stRate3))] ∧
    Balance.measurements_per_batch Balance.stRate3 =
      (Balance.stRate3.measurement_rate_hz + 1) / 2 ∧
    1 ≤ Balance.measurements_per_batch Balance.stRate3) :=
  ⟨rfl, c4_reset_sequence Balance.stRate3 9600 'E' 5 rfl⟩

/-- Claim C5 is contradicted by the code: on an RFID event matching the
paired reader (and balance), `on_rfid` raises `TypeError` instead of
updating the `read_until` field, because the datetime stored in the
instance attribute `read_until` at `weigh/balance.py:127` shadows the
method of the same name at `weigh/balance.py:191`. -/
theorem c5_on_rfid_raises :
    Balance.evPair.reader_id = Balance.stPair.reader_id ∧
    Balance.evPair.balance_id = Balance.stPair.balance_id ∧
    Balance.on_rfid Balance.stPair Balance.evPair =
      .error "TypeError: datetime.datetime object is not callable" := by
  refine ⟨rfl, rfl, ?_⟩
  rfl

/-- A witness for claim C9: both branches at concrete inputs. -/
theorem c9_unknown_classification_witness :
    (("hello".toList.length ≠ 17 ∨ "hello".toList.head? ≠ some 'Z') ∧
      Rfid.ztag_to_rfid_number "hello".toList = .invalid) ∧
    (('Z' :: List.replicate 16 'G').length = 17 ∧
      ('Z' :: List.replicate 16 'G').head? = some 'Z' ∧
      (∃ c ∈ ('Z' :: List.replicate 16 'G').drop 1, Rfid.hexVal c = none) ∧
      Rfid.ztag_to_rfid_number ('Z' :: List.replicate 16 'G') =
        .exn "bitstring: invalid hex initialiser") :=
  ⟨⟨by decide, (c9_unknown_classification "hello".toList).1 (by decide)⟩,
   ⟨by decide, by decide, by decide,
    (c9_unknown_classification ('Z' :: List.replicate 16 'G')).2
      (by decide) (by decide) (by decide)⟩⟩

/-! ## Properties of the persistence layer -/

/-- Claim C2: every persisted identified mass event comes with a stored
RFID event at the balance paired reader whose last detection is at most
`rfid_effective_time_s` before the mass timestamp (non-strictly, so an
age exactly equal to the window still counts), and the persisted row
carries that event tag. -/
theorem c2_locked_mass_has_recent_rfid (balances : List Models.BalanceConfigRec)
    (events : List Models.RfidEventRec) (mse : Models.MassSingleEventM)
    (eff : Rat) (mie : Models.MassIdentifiedEventRec)
    (h : Models.record_mass_detection balances events mse eff = some mie) :
    mie.at_ = mse.timestamp ∧
    (∃ b ∈ balances, b.id = mse.balance_id ∧
      b.reader = some mie.reader_id) ∧
    ∃ e ∈ events, e.reader_id = mie.reader_id ∧
      mie.at_ - e.last_detected_at ≤ eff ∧ mie.rfid = e.rfid := by
  unfold Models.record_mass_detection at h
  cases hb : balances.find? (fun b => decide (b.id = mse.balance_id)) with
  | none => rw [hb] at h; simp at h
  | some balance =>
    rw [hb] at h
    dsimp only at h
    cases hrd : balance.reader with
    | none => rw [hrd] at h; simp at h
    | some reader_id =>
      rw [hrd] at h
      dsimp only at h
      cases he : Models.get_ongoing_event_at_reader events reader_id
          mse.timestamp eff with
      | none => rw [he] at h; simp at h
      | some rfid_event =>
        rw [he] at h
        dsimp only at h
        cases hkg : Models.get_kg mse with
        | none => rw [hkg] at h; simp at h
        | some kg =>
          rw [hkg] at h
          dsimp only at h
          obtain rfl := Option.some.inj h
          have hbmem := List.mem_of_find?_eq_some hb
          have hbp := List.find?_some hb
          simp only [decide_eq_true_eq] at hbp
          have he2 : events.find? (fun e =>
              decide (e.reader_id = reader_id) &&
              decide (mse.timestamp - eff ≤ e.last_detected_at)) =
              some rfid_event := he
          have hemem : rfid_event ∈ events :=
            List.mem_of_find?_eq_some he2
          have hep := List.find?_some he2
          rw [Bool.and_eq_true, decide_eq_true_eq, decide_eq_true_eq]
            at hep
          refine ⟨rfl, ⟨balance, hbmem, hbp, hrd⟩,
            rfid_event, hemem, hep.1, ?_, rfl⟩
          have := hep.2
          dsimp only
          linarith

/-- A witness for claim C2 with the detection age exactly equal to the
5 s effective window. -/
theorem c2_locked_mass_has_recent_rfid_witness :
    Models.record_mass_detection Models.balancesEx Models.rfidEventsEx
      Models.mseEx 5 = some ⟨208210000479322, 2, 1, 10, 1 / 20⟩ ∧
    ((⟨208210000479322, 2, 1, 10, 1 / 20⟩ :
        Models.MassIdentifiedEventRec).at_ = Models.mseEx.timestamp ∧
      (∃ b ∈ Models.balancesEx, b.id = Models.mseEx.balance_id ∧
        b.reader = some (⟨208210000479322, 2, 1, 10, 1 / 20⟩ :
          Models.MassIdentifiedEventRec).reader_id) ∧
      ∃ e ∈ Models.rfidEventsEx,
        e.reader_id = (⟨208210000479322, 2, 1, 10, 1 / 20⟩ :
          Models.MassIdentifiedEventRec).reader_id ∧
        (⟨208210000479322, 2, 1, 10, 1 / 20⟩ :
          Models.MassIdentifiedEventRec).at_ - e.last_detected_at ≤ 5 ∧
        (⟨208210000479322, 2, 1, 10, 1 / 20⟩ :
          Models.MassIdentifiedEventRec).rfid = e.rfid) := by
  have hg : Models.get_kg ⟨1, 50, "g", 10⟩ = some (1 / 20) := by
    unfold Models.get_kg
    dsimp only
    rw [if_neg (by decide), if_pos rfl]
    norm_num
  have heval : Models.record_mass_detection Models.balancesEx
      Models.rfidEventsEx Models.mseEx 5 =
      some ⟨208210000479322, 2, 1, 10, 1 / 20⟩ := by
    norm_num [Models.record_mass_detection, Models.get_ongoing_event_at_reader,
      hg, Models.balancesEx, Models.rfidEventsEx, Models.mseEx,
      List.find?]
  exact ⟨heval, c2_locked_mass_has_recent_rfid Models.balancesEx
    Models.rfidEventsEx Models.mseEx 5 _ heval⟩

/-! ## Properties of the stability detector with unlock -/

theorem sd_process_window_le (st : Stability.SDState) (m : Rat) :
    (Stability.sd_process st m).1.window.length ≤ st.window.length + 1 ∧
    (Stability.sd_process st m).1.stability_n = st.stability_n := by
  unfold Stability.sd_process
  dsimp only
  split_ifs <;> simp [List.length_drop]

theorem sd_run_no_stable (ms : List Rat) :
    ∀ st : Stability.SDState,
      st.window.length + ms.length < st.stability_n →
      ∀ r ∈ (Stability.sd_run st ms).2, r = none := by
  induction ms with
  | nil =>
    intro st _ r hr
    simp [Stability.sd_run] at hr
  | cons m ms ih =>
    intro st h r hr
    unfold Stability.sd_run at hr
    dsimp only at hr
    rcases List.mem_cons.mp hr with rfl | hr2
    · unfold Stability.sd_process
      dsimp only
      have hw : (st.window ++ [m]).length ≤ st.stability_n := by
        have hlen : (st.window ++ [m]).length = st.window.length + 1 := by
          simp
        rw [hlen]
        simp only [List.length_cons] at h
        omega
      rw [if_pos hw]
      split_ifs with h1 h2
      · rfl
      · rfl
      · exfalso
        have hlen : (st.window ++ [m]).length = st.window.length + 1 := by
          simp
        rw [hlen] at h2
        simp only [List.length_cons] at h
        omega
    · have hle := sd_process_window_le st m
      refine ih (Stability.sd_process st m).1 ?_ r hr2
      rw [hle.2]
      simp only [List.length_cons] at h
      omega

/-- Claim C6 (spec-modelled unlock policy): a processed mass below
`unlock_mass_kg` clears the window, and after such a reading a stable
mass cannot be reported until at least `stability_n` further readings
have arrived. -/
theorem c6_unlock_clears (st : Stability.SDState) (m : Rat)
    (hm : m < st.unlock_mass_kg) :
    (Stability.sd_process st m).1.window = [] ∧
    ∀ ms : List Rat, ms.length < st.stability_n →
      ∀ r ∈ (Stability.sd_run (Stability.sd_process st m).1 ms).2,
        r = none := by
  have hwin : (Stability.sd_process st m).1.window = [] := by
    unfold Stability.sd_process
    dsimp only
    rw [if_pos hm]
  refine ⟨hwin, fun ms hlen r hr => ?_⟩
  refine sd_run_no_stable ms (Stability.sd_process st m).1 ?_ r hr
  rw [hwin, (sd_process_window_le st m).2]
  simpa using hlen

/-- A witness for claim C6: spec scenario 2, mass 0.005 below the
0.010 unlock threshold, followed by two further readings. -/
theorem c6_unlock_clears_witness :
    (1 / 200 : Rat) < Stability.sdEx.unlock_mass_kg ∧
    ([(1 : Rat) / 10, 1 / 10].length < Stability.sdEx.stability_n ∧
      (Stability.sd_process Stability.sdEx (1 / 200)).1.window = [] ∧
      ∀ r ∈ (Stability.sd_run
          (Stability.sd_process Stability.sdEx (1 / 200)).1
          [1 / 10, 1 / 10]).2, r = none) := by
  have hm : (1 / 200 : Rat) < Stability.sdEx.unlock_mass_kg := by
    norm_num [Stability.sdEx]
  have hlen : ([(1 : Rat) / 10, 1 / 10].length < Stability.sdEx.stability_n) := by
    norm_num [Stability.sdEx]
  exact ⟨hm, hlen, (c6_unlock_clears Stability.sdEx (1 / 200) hm).1,
    (c6_unlock_clears Stability.sdEx (1 / 200) hm).2 [1 / 10, 1 / 10] hlen⟩

/-! ## Properties of the serial writer queue -/

theorem processQueue_writes (eol : String) (q : List (String × Nat)) :
    Writer.writesOf (Writer.processQueue eol q).2.2 ++
      Writer.pendingDatas eol (Writer.processQueue eol q).1 =
    Writer.pendingDatas eol q := by
  induction q with
  | nil => rfl
  | cons p rest ih =>
    obtain ⟨data, d⟩ := p
    cases d with
    | zero =>
      unfold Writer.processQueue
      dsimp only
      simp only [Writer.writesOf, List.filterMap_cons] at ih ⊢
      rw [List.cons_append]
      rw [show Writer.pendingDatas eol ((data, 0) :: rest) =
        (data ++ eol) :: Writer.pendingDatas eol rest from rfl]
      exact congrArg _ ih
    | succ d =>
      unfold Writer.processQueue
      simp [Writer.writesOf, Writer.pendingDatas]

theorem wrun_fifo (eol : String) (evs : List Writer.WEvent) :
    ∀ st : Writer.WriterState,
      Writer.writesOf (Writer.wrun eol st evs).2 ++
        Writer.pendingDatas eol (Writer.wrun eol st evs).1.queue =
      Writer.pendingDatas eol st.queue ++
        (Writer.sentDatas evs).map (fun dt => dt ++ eol) := by
  induction evs with
  | nil =>
    intro st
    simp [Writer.wrun, Writer.writesOf, Writer.sentDatas]
  | cons e es ih =>
    intro st
    unfold Writer.wrun
    dsimp only
    cases e with
    | send data delay_ms =>
      unfold Writer.wstep
      dsimp only
      split_ifs with hb
      · rw [show Writer.writesOf ([] ++ (Writer.wrun eol
            ⟨st.queue ++ [(data, delay_ms)], true⟩ es).2) =
          Writer.writesOf (Writer.wrun eol
            ⟨st.queue ++ [(data, delay_ms)], true⟩ es).2 from rfl]
        rw [ih ⟨st.queue ++ [(data, delay_ms)], true⟩]
        simp [Writer.pendingDatas, Writer.sentDatas]
      · rw [show Writer.sentDatas (Writer.WEvent.send data delay_ms :: es) =
          data :: Writer.sentDatas es from rfl]
        rw [Writer.writesOf, List.filterMap_append, ← Writer.writesOf,
          ← Writer.writesOf, List.append_assoc]
        rw [ih ⟨(Writer.processQueue eol
          (st.queue ++ [(data, delay_ms)])).1,
          (Writer.processQueue eol (st.queue ++ [(data, delay_ms)])).2.1⟩]
        rw [← List.append_assoc,
          processQueue_writes eol (st.queue ++ [(data, delay_ms)])]
        simp [Writer.pendingDatas]
    | tick =>
      unfold Writer.wstep
      dsimp only
      rw [Writer.writesOf, List.filterMap_append, ← Writer.writesOf,
        ← Writer.writesOf, List.append_assoc]
      rw [ih ⟨(Writer.processQueue eol st.queue).1,
        (Writer.processQueue eol st.queue).2.1⟩]
      rw [← List.append_assoc, processQueue_writes eol st.queue]
      rfl

/-- Claim C7 (corrected): from the initial writer state, for any event
interleaving the written frames are exactly the FIFO prefix of the sent
data (each followed by `tx_eol`, written atomically), with the rest
still pending in order; but for an entry with positive `delay_ms` the
writer arms the delay timer before sending that entry (the entry is put
back at the head with zero delay), not after completing its send. -/
theorem c7_fifo_delay (eol : String) (evs : List Writer.WEvent)
    (data : String) (d : Nat) (rest : List (String × Nat)) :
    (Writer.writesOf (Writer.wrun eol ⟨[], false⟩ evs).2 ++
      Writer.pendingDatas eol (Writer.wrun eol ⟨[], false⟩ evs).1.queue =
      (Writer.sentDatas evs).map (fun dt => dt ++ eol)) ∧
    Writer.processQueue eol ((data, d + 1) :: rest) =
      ((data, 0) :: rest, true, [.startWait (d + 1)]) :=
  ⟨by simpa [Writer.pendingDatas] using wrun_fifo eol evs ⟨[], false⟩, rfl⟩

/-- Claim C7 (counterexample to the delay clause): sending `A` with a
5 ms delay arms the wait timer first and writes `A;` only after the
timer fires — the write does not precede the wait as the claim
requires. -/
theorem c7_delay_counterexample :
    Writer.wrun ";" ⟨[], false⟩ [.send "A" 5, .tick] =
      (⟨[], false⟩, [.startWait 5, .write ("A" ++ ";")]) ∧
    [Writer.WAction.startWait 5, .write ("A" ++ ";")] ≠
      [.write ("A" ++ ";"), .startWait 5] := by
  refine ⟨rfl, by decide⟩

end Starfeeder
